import Mathlib

/-!
Event store mock repository.

A shallow embedding of `internal/eventstore/repository/mock`:

* `repository.mock.impl.go`: `MockRepository` with its `Expect...` helpers and `mockEvent`;
* `repository.mock.go`: the generated `MockQuerier` / `MockPusher` methods.

Go values are embedded as follows.

* A slice returned by a method is a `Slice α = Option (List α)`; `none` is the nil slice.
* A Go `error` is an `Option GoError`; `none` is the nil error.
* A `Command` is the record of what its six accessor methods return.  The types of the
  aggregate reference, the payload and the unique constraint are declared outside the
  embedded files and are type parameters `A`, `P`, `U`; aggregate references and unique
  constraints are compared by equality, payloads by `reflect.DeepEqual`, of which nothing
  is assumed.
* `testify`'s `assert.Equal` / `assert.ElementsMatch` and `gomock`'s expectation
  bookkeeping are libraries the embedded files call; they are embedded from the library
  behaviour the calls rely on (`ObjectsAreEqual`, `diffLists`, one-shot expected calls that
  are matched in registration order).
* `T.Errorf` only records a failure and lets the handler continue; the records are collected
  as a list of `Mismatch`.  `T.Fatalf` aborts the calling test; a mock call that ends in
  `Fatalf` yields `none`.
-/

/-- A Go slice value: `none` is the nil slice, `some l` a non-nil slice with elements `l`. -/
abbrev Slice (α : Type) := Option (List α)

/-- Go `len` of a slice; the nil slice has length zero. -/
def Slice.len {α : Type} : Slice α → Nat
  | none => 0
  | some l => l.length

/-- A non-nil Go `error` value, identified with its message. -/
abbrev GoError := String

namespace eventstore

/-- The interface `eventstore.Command` as the record of the values its accessors return:
`Aggregate()`, `Creator()`, `Type()`, `Revision()`, `Payload()` (`none` is the nil payload)
and `UniqueConstraints()`. -/
structure Command (A P U : Type) where
  Aggregate : A
  Creator : String
  EventType : String
  Revision : Nat
  Payload : Option P
  UniqueConstraints : List U
deriving DecidableEq

end eventstore

namespace reflect

/-- The comparison `reflect.DeepEqual` (`bytes.Equal` for byte slices) on the non-nil values
a payload of type `P` can be.  No law is assumed of it: in Go a value need not be deeply
equal to itself (a NaN float, a non-nil func). -/
class DeepEqual (P : Type) where
  deepEqual : P → P → Bool

/-- On strings `reflect.DeepEqual` is `==`. -/
instance stringDeepEqual : DeepEqual String where
  deepEqual := fun x y => decide (x = y)

end reflect

namespace testify

/-- The comparison `assert.ObjectsAreEqual expected actual` on the statically typed
accessors (strings, integers, pointers to structs of such fields), on which
`reflect.DeepEqual` is structural equality. -/
def ObjectsAreEqual {α : Type} [DecidableEq α] (expected actual : α) : Bool :=
  decide (expected = actual)

/-- The comparison `assert.ObjectsAreEqual expected actual` on two `any` payloads: when one
of them is nil both must be nil, otherwise the values are compared with
`reflect.DeepEqual`. -/
def ObjectsAreEqualAny {P : Type} [reflect.DeepEqual P] : Option P → Option P → Bool
  | none, none => true
  | none, some _ => false
  | some _, none => false
  | some expected, some actual => reflect.DeepEqual.deepEqual expected actual

/-- The inner loop of `diffLists`: walks `listB` together with its `visited` marks, skips the
visited positions, and marks the first unvisited position whose element equals `element`.
Returns the updated marks, or `none` when no such position exists (`found` stays false). -/
def markFirst {α : Type} [DecidableEq α] (element : α) : List α → List Bool → Option (List Bool)
  | b :: bs, v :: vs =>
    if v then (markFirst element bs vs).map (fun r => v :: r)
    else if ObjectsAreEqual b element then some (true :: vs)
    else (markFirst element bs vs).map (fun r => v :: r)
  | _, _ => none

/-- One iteration of the outer loop of `diffLists` over `listA`. -/
def diffStep {α : Type} [DecidableEq α] (listB : List α) (st : List α × List Bool) (element : α) :
    List α × List Bool :=
  match markFirst element listB st.2 with
  | some visited => (st.1, visited)
  | none => (st.1 ++ [element], st.2)

/-- The elements of `listB` whose position is not marked visited (second loop of `diffLists`). -/
def unvisited {α : Type} : List α → List Bool → List α
  | b :: bs, v :: vs => if v then unvisited bs vs else b :: unvisited bs vs
  | _, _ => []

/-- The function `diffLists listA listB`: the elements of `listA` that found no partner in
`listB` and the elements of `listB` that were never used as a partner. -/
def diffLists {α : Type} [DecidableEq α] (listA listB : List α) : List α × List α :=
  let st := listA.foldl (diffStep listB) ([], List.replicate listB.length false)
  (st.1, unvisited listB st.2)

/-- The result of `assert.ElementsMatch t listA listB`: true when both lists are empty, or
when `diffLists` leaves nothing over on either side. -/
def ElementsMatch {α : Type} [DecidableEq α] (listA listB : List α) : Bool :=
  if listA.isEmpty && listB.isEmpty then true
  else
    let d := diffLists listA listB
    d.1.length == 0 && d.2.length == 0

end testify

namespace mock

open eventstore testify

/-- The accessor a failed assertion of the Push handlers was about. -/
inductive Field where
  | Aggregate
  | Creator
  | EventType
  | Revision
  | Payload
  | UniqueConstraints
deriving DecidableEq, Repr

/-- One failure recorded on the test reporter by a Push handler: the position in the batch
and the accessor whose assertion failed.  (The rendered text of the message is not part of
the embedding.) -/
structure Mismatch where
  index : Nat
  field : Field
deriving DecidableEq, Repr

/-- The struct `mockEvent`: the wrapped command, `sequence` (uint64) and `createdAt`
(a `time.Time`, as a number whose zero is the zero time). -/
structure mockEvent (A P U : Type) where
  Command : eventstore.Command A P U
  sequence : Nat
  createdAt : Nat
deriving DecidableEq

/-- The method `mockEvent.Sequence`. -/
def mockEvent.Sequence {A P U : Type} (e : mockEvent A P U) : Nat :=
  e.sequence

/-- The method `mockEvent.CreatedAt`. -/
def mockEvent.CreatedAt {A P U : Type} (e : mockEvent A P U) : Nat :=
  e.createdAt

/-- What a Push handler produces: the returned events, the returned error, and the failures
it recorded on the test reporter while comparing. -/
structure PushOutcome (A P U : Type) where
  events : Slice (mockEvent A P U)
  err : Option GoError
  reports : List Mismatch
deriving DecidableEq

section handlers

variable {A P U : Type} [DecidableEq A] [reflect.DeepEqual P] [DecidableEq U]

/-- The six assertions of one loop iteration of the Push handlers, in source order, for the
expected command and the received command at position `i`. -/
def checkCommand (i : Nat) (expectedCommand command : Command A P U) : List Mismatch :=
  (if ObjectsAreEqual expectedCommand.Aggregate command.Aggregate then [] else [⟨i, Field.Aggregate⟩])
  ++ (if ObjectsAreEqual expectedCommand.Creator command.Creator then [] else [⟨i, Field.Creator⟩])
  ++ (if ObjectsAreEqual expectedCommand.EventType command.EventType then [] else [⟨i, Field.EventType⟩])
  ++ (if ObjectsAreEqual expectedCommand.Revision command.Revision then [] else [⟨i, Field.Revision⟩])
  ++ (if ObjectsAreEqualAny expectedCommand.Payload command.Payload then [] else [⟨i, Field.Payload⟩])
  ++ (if ElementsMatch expectedCommand.UniqueConstraints command.UniqueConstraints then []
      else [⟨i, Field.UniqueConstraints⟩])

/-- The loop `for i, expectedCommand := range expectedCommands` comparing with `commands[i]`,
started at position `i`.  The handlers run it only when both lists have the same length. -/
def checkCommands : Nat → List (Command A P U) → List (Command A P U) → List Mismatch
  | i, e :: es, c :: cs => checkCommand i e c ++ checkCommands (i + 1) es cs
  | _, _, _ => []

/-- The error built by `fmt.Errorf` when the number of commands is unexpected. -/
def unexpectedAmount (want got : Nat) : GoError :=
  "unexpected amount of commands: want " ++ toString want ++ ", got " ++ toString got

/-- The function passed to `DoAndReturn` by `ExpectPush`. -/
def expectPushHandler (expectedCommands commands : List (Command A P U)) : PushOutcome A P U :=
  if expectedCommands.length != commands.length then
    ⟨none, some (unexpectedAmount expectedCommands.length commands.length), []⟩
  else
    ⟨some (commands.map fun command => { Command := command, sequence := 0, createdAt := 0 }),
      none, checkCommands 0 expectedCommands commands⟩

/-- The function passed to `DoAndReturn` by `ExpectPushFailed`. -/
def expectPushFailedHandler (err : Option GoError) (expectedCommands commands : List (Command A P U)) :
    PushOutcome A P U :=
  if expectedCommands.length != commands.length then
    ⟨none, some (unexpectedAmount expectedCommands.length commands.length), []⟩
  else
    ⟨none, err, checkCommands 0 expectedCommands commands⟩

end handlers

/-! ## Expected calls and the generated mock methods -/

/-- The argument matchers the `Expect...` helpers register for the query argument:
`gomock.Any()` or a `filterQueryMatcher` holding `Filters`. -/
inductive Matcher (F : Type) where
  | Any
  | filterQueryMatcher (Filters : List (List F))
deriving DecidableEq

/-- The method `Matches` of a matcher on a query.  `filterQueryMatcher.Matches` is declared
outside the embedded files and is the parameter `filterMatches`. -/
def Matcher.Matches {F Q : Type} (filterMatches : List (List F) → Q → Bool) : Matcher F → Q → Bool
  | Matcher.Any, _ => true
  | Matcher.filterQueryMatcher Filters, q => filterMatches Filters q

/-- A recorded expectation `EXPECT().Filter(Any, Any).Return(ret0, ret1)`. -/
structure FilterCall (Ev : Type) where
  ret0 : Slice Ev
  ret1 : Option GoError
deriving DecidableEq

/-- A recorded expectation `EXPECT().InstanceIDs(Any, matcher).Return(ret0, ret1)`. -/
structure InstanceIDsCall (F : Type) where
  matcher : Matcher F
  ret0 : Slice String
  ret1 : Option GoError
deriving DecidableEq

/-- A recorded expectation `EXPECT().Push(Any, Any).DoAndReturn(handler)`: the handler is
the closure of `ExpectPush` or of `ExpectPushFailed` over its captured arguments. -/
inductive PushCall (A P U : Type) where
  | expectPush (expectedCommands : List (Command A P U))
  | expectPushFailed (err : Option GoError) (expectedCommands : List (Command A P U))
deriving DecidableEq

/-- Runs the handler of a recorded Push expectation on the received commands. -/
def PushCall.run {A P U : Type} [DecidableEq A] [reflect.DeepEqual P] [DecidableEq U] :
    PushCall A P U → List (Command A P U) → PushOutcome A P U
  | PushCall.expectPush expectedCommands, commands => expectPushHandler expectedCommands commands
  | PushCall.expectPushFailed err expectedCommands, commands =>
    expectPushFailedHandler err expectedCommands commands

/-- The expected calls of `MockQuerier`, per method, in registration order. -/
structure MockQuerier (Ev F : Type) where
  filterCalls : List (FilterCall Ev)
  instanceIDsCalls : List (InstanceIDsCall F)
deriving DecidableEq

/-- The expected calls of `MockPusher.Push`, in registration order. -/
structure MockPusher (A P U : Type) where
  pushCalls : List (PushCall A P U)
deriving DecidableEq

/-- The struct `MockRepository`: both mocks, and the failures recorded so far on the test
reporter `ctrl.T` they share. -/
structure MockRepository (A P U Ev F : Type) where
  MockPusher : mock.MockPusher A P U
  MockQuerier : mock.MockQuerier Ev F
  failures : List Mismatch
deriving DecidableEq

/-- The search of `ctrl.Call` for the expected call that serves a call: the first recorded
call, in registration order, whose matchers accept the arguments.  Every expectation is
recorded for exactly one call, so the call found is removed from the expected calls. -/
def findMatch {C : Type} (accepts : C → Bool) : List C → Option (C × List C)
  | [] => none
  | c :: cs =>
    if accepts c then some (c, cs)
    else (findMatch accepts cs).map fun r => (r.1, c :: r.2)

section repository

variable {A P U Ev F : Type}

/-- The constructor `NewRepo`: no expected calls, nothing recorded. -/
def NewRepo : MockRepository A P U Ev F :=
  { MockPusher := { pushCalls := [] }, MockQuerier := { filterCalls := [], instanceIDsCalls := [] },
    failures := [] }

/-- Appends an expectation for `Filter`. -/
def MockRepository.expectFilter (m : MockRepository A P U Ev F) (call : FilterCall Ev) :
    MockRepository A P U Ev F :=
  { m with MockQuerier := { m.MockQuerier with filterCalls := m.MockQuerier.filterCalls ++ [call] } }

/-- The helper `ExpectFilterNoEventsNoError`: `Return(nil, nil)`. -/
def MockRepository.ExpectFilterNoEventsNoError (m : MockRepository A P U Ev F) :
    MockRepository A P U Ev F :=
  m.expectFilter { ret0 := none, ret1 := none }

/-- The helper `ExpectFilterEvents`: `Return(events, nil)`. -/
def MockRepository.ExpectFilterEvents (m : MockRepository A P U Ev F) (events : Slice Ev) :
    MockRepository A P U Ev F :=
  m.expectFilter { ret0 := events, ret1 := none }

/-- The helper `ExpectFilterEventsError`: `Return(nil, err)`. -/
def MockRepository.ExpectFilterEventsError (m : MockRepository A P U Ev F) (err : Option GoError) :
    MockRepository A P U Ev F :=
  m.expectFilter { ret0 := none, ret1 := err }

/-- Appends an expectation for `InstanceIDs`. -/
def MockRepository.expectInstanceIDs (m : MockRepository A P U Ev F) (call : InstanceIDsCall F) :
    MockRepository A P U Ev F :=
  { m with MockQuerier :=
      { m.MockQuerier with instanceIDsCalls := m.MockQuerier.instanceIDsCalls ++ [call] } }

/-- The helper `ExpectInstanceIDs`: the matcher is `Any` unless `hasFilters` is non-empty;
`Return(instanceIDs, nil)`. -/
def MockRepository.ExpectInstanceIDs (m : MockRepository A P U Ev F) (hasFilters : List F)
    (instanceIDs : Slice String) : MockRepository A P U Ev F :=
  let matcher := if hasFilters.length > 0 then Matcher.filterQueryMatcher [hasFilters] else Matcher.Any
  m.expectInstanceIDs { matcher := matcher, ret0 := instanceIDs, ret1 := none }

/-- The helper `ExpectInstanceIDsError`: `Return(nil, err)`. -/
def MockRepository.ExpectInstanceIDsError (m : MockRepository A P U Ev F) (err : Option GoError) :
    MockRepository A P U Ev F :=
  m.expectInstanceIDs { matcher := Matcher.Any, ret0 := none, ret1 := err }

/-- Appends an expectation for `Push`. -/
def MockRepository.expectPushCall (m : MockRepository A P U Ev F) (call : PushCall A P U) :
    MockRepository A P U Ev F :=
  { m with MockPusher := { pushCalls := m.MockPusher.pushCalls ++ [call] } }

/-- The helper `ExpectPush`. -/
def MockRepository.ExpectPush (m : MockRepository A P U Ev F)
    (expectedCommands : List (Command A P U)) : MockRepository A P U Ev F :=
  m.expectPushCall (PushCall.expectPush expectedCommands)

/-- The helper `ExpectPushFailed`. -/
def MockRepository.ExpectPushFailed (m : MockRepository A P U Ev F) (err : Option GoError)
    (expectedCommands : List (Command A P U)) : MockRepository A P U Ev F :=
  m.expectPushCall (PushCall.expectPushFailed err expectedCommands)

/-- The generated method `MockQuerier.Filter`: the first pending `Filter` expectation serves
the call (its matchers are `Any`) and its recorded values are returned; without a pending
expectation the controller aborts the test (`none`). -/
def MockRepository.Filter {Ctx Q : Type} (m : MockRepository A P U Ev F) (_arg0 : Ctx) (_arg1 : Q) :
    Option ((Slice Ev × Option GoError) × MockRepository A P U Ev F) :=
  match findMatch (fun _ => true) m.MockQuerier.filterCalls with
  | none => none
  | some (call, rest) =>
    some ((call.ret0, call.ret1), { m with MockQuerier := { m.MockQuerier with filterCalls := rest } })

/-- The generated method `MockQuerier.InstanceIDs`: served by the first pending expectation
whose query matcher accepts `arg1`. -/
def MockRepository.InstanceIDs {Ctx Q : Type} (filterMatches : List (List F) → Q → Bool)
    (m : MockRepository A P U Ev F) (_arg0 : Ctx) (arg1 : Q) :
    Option ((Slice String × Option GoError) × MockRepository A P U Ev F) :=
  match findMatch (fun call => call.matcher.Matches filterMatches arg1) m.MockQuerier.instanceIDsCalls with
  | none => none
  | some (call, rest) =>
    some ((call.ret0, call.ret1),
      { m with MockQuerier := { m.MockQuerier with instanceIDsCalls := rest } })

/-- The generated method `MockPusher.Push`: the first pending `Push` expectation serves the
call; its handler runs on the received commands, what it records goes to the test reporter
and what it returns is returned. -/
def MockRepository.Push {Ctx : Type} [DecidableEq A] [reflect.DeepEqual P] [DecidableEq U]
    (m : MockRepository A P U Ev F) (_arg0 : Ctx) (arg1 : List (Command A P U)) :
    Option ((Slice (mockEvent A P U) × Option GoError) × MockRepository A P U Ev F) :=
  match findMatch (fun _ => true) m.MockPusher.pushCalls with
  | none => none
  | some (call, rest) =>
    let outcome := call.run arg1
    some ((outcome.events, outcome.err),
      { m with MockPusher := { pushCalls := rest }, failures := m.failures ++ outcome.reports })

end repository

/-! ## The remaining methods of `mockEvent` -/

end mock

namespace reflect

/-- What an `any` handed to `mockEvent.Unmarshal` or returned by `Payload()` holds: a pointer
to a location of the heap, or a payload value. -/
inductive Object (P : Type) where
  | pointer (location : Nat)
  | payload (p : P)
deriving DecidableEq

/-- The heap the pointers point into: what is stored at each location. -/
abbrev Heap (P : Type) := Nat → Option (Object P)

/-- A `reflect.Value`: the object it holds (`none` for the zero Value) and, when the value is
addressable, the location it occupies (`none` when the addressable flag is not set). -/
structure Value (P : Type) where
  object : Option (Object P)
  addr : Option Nat

/-- The function `reflect.ValueOf i`: a Value holding the object stored in the interface `i`
(the zero Value for the nil interface).  A Value made by `ValueOf` is never addressable. -/
def ValueOf {P : Type} (i : Option (Object P)) : Value P :=
  { object := i, addr := none }

/-- The method `v.Set x`, which panics unless `v` can be set: on the zero Value and on a value
that is not addressable it panics; otherwise it stores the object of `x` at the location of
`v`.  A panic is `Except.error` with the panic message. -/
def Value.Set {P : Type} (heap : Heap P) (v x : Value P) : Except String (Heap P) :=
  match v.object with
  | none => Except.error "reflect: call of reflect.Value.Set on zero Value"
  | some _ =>
    match v.addr with
    | none => Except.error "reflect: reflect.Value.Set using unaddressable value"
    | some location => Except.ok fun l => if l = location then x.object else heap l

end reflect

namespace mock

open eventstore testify

/-- The method `mockEvent.DataAsBytes`.  `json.Marshal` is the parameter `jsonMarshal`,
returning the encoded bytes and an error.  A panic is `Except.error` with the panic
message. -/
def mockEvent.DataAsBytes {A P U : Type} (jsonMarshal : P → Slice Nat × Option GoError)
    (e : mockEvent A P U) : Except String (Slice Nat) :=
  match e.Command.Payload with
  | none => Except.ok none
  | some p =>
    let r := jsonMarshal p
    if r.2.isSome then Except.error "unable to unmarshal"
    else Except.ok r.1

/-- The method `mockEvent.Unmarshal` on the target `ptr` and the heap: `Set` is called on
`reflect.ValueOf(ptr)` with `reflect.ValueOf` of the payload; when `Set` returns, the nil
error is returned. -/
def mockEvent.Unmarshal {A P U : Type} (e : mockEvent A P U) (ptr : Option (reflect.Object P))
    (heap : reflect.Heap P) : Except String (Option GoError × reflect.Heap P) :=
  match (reflect.ValueOf ptr).Set heap
      (reflect.ValueOf (e.Command.Payload.map reflect.Object.payload)) with
  | Except.error msg => Except.error msg
  | Except.ok stored => Except.ok (none, stored)

/-! ## Relations used to state the properties -/

/-- Two commands that agree on aggregate, creator, type, revision and payload and whose
unique-constraint lists are permutations of each other. -/
def sameUpToConstraintOrder {A P U : Type} (c d : Command A P U) : Prop :=
  c.Aggregate = d.Aggregate ∧ c.Creator = d.Creator ∧ c.EventType = d.EventType ∧
  c.Revision = d.Revision ∧ c.Payload = d.Payload ∧
  c.UniqueConstraints.Perm d.UniqueConstraints

/-- Two mock events with the same sequence and creation time whose commands differ at most
in the order of their unique constraints. -/
def eventsUpToConstraintOrder {A P U : Type} (e f : mockEvent A P U) : Prop :=
  sameUpToConstraintOrder e.Command f.Command ∧ e.sequence = f.sequence ∧ e.createdAt = f.createdAt

/-! ## Sample values -/

/-- A command creating the user aggregate of scenario A, with the given unique constraints. -/
def sampleCommand (constraints : List String) : Command String String String :=
  { Aggregate := "I1/O1/user/U1", Creator := "U1", EventType := "user.added", Revision := 1,
    Payload := some "name:alice", UniqueConstraints := constraints }

/-- A payload that is a float64: a number or NaN. -/
inductive FloatPayload where
  | number (n : Int)
  | NaN
deriving DecidableEq

/-- On floats `reflect.DeepEqual` is `==`, which is false whenever one side is NaN. -/
instance floatDeepEqual : reflect.DeepEqual FloatPayload where
  deepEqual := fun x y =>
    match x, y with
    | FloatPayload.number a, FloatPayload.number b => decide (a = b)
    | _, _ => false

/-- A command whose payload is the float NaN. -/
def nanCommand : Command String FloatPayload String :=
  { Aggregate := "I1/O1/user/U1", Creator := "U1", EventType := "user.scored", Revision := 1,
    Payload := some FloatPayload.NaN, UniqueConstraints := [] }

/-- A mock repository over the sample types with no expectations. -/
def sampleRepo : MockRepository String String String String Nat := NewRepo

/-- The event the `ExpectPush` handler builds for the command of scenario A. -/
def sampleEvent : mockEvent String String String :=
  { Command := sampleCommand ["email"], sequence := 0, createdAt := 0 }

/-- A heap whose location 0 holds a payload variable and nothing else. -/
def sampleHeap : reflect.Heap String :=
  fun l => if l = 0 then some (reflect.Object.payload "") else none

end mock

/-! ## The restore job of the database operator

An embedding of `AdaptFunc` in `operator/database/kinds/backups/bucket/restore/adapt.go`.
The functions it calls are declared in other files and packages and are the fields of
`Deps`.  A Go function returning `(value, error)` returns a pair; a function value that may
be nil is an `Option`. -/

namespace restore

/-- The types of the values `AdaptFunc` passes around without inspecting them. -/
structure Types where
  Monitor : Type
  Component : Type
  Name : Type
  NodeSelector : Type
  Toleration : Type
  Job : Type
  Client : Type
  Queried : Type
  EnsureFunc : Type
  ResourceDestroy : Type
  ResourceQuery : Type
  DestroyFunc : Type
  QueryFunc : Type

/-- The constant `certPath`. -/
def certPath : String := "/cockroach/cockroach-certs"

/-- The constant `secretPath`. -/
def secretPath : String := "/secrets/sa.json"

/-- The functions `AdaptFunc` calls: `core.GetRestoreJobName`, `core.GetSecretName`,
`getCommand`, `getJob`, `labels.MustForName` (`none` when it panics),
`job.AdaptFuncToDestroy`, `job.AdaptFuncToEnsure`, and the converters and combinators of
package `operator`, whose results are function values taken to be non-nil. -/
structure Deps (T : Types) where
  GetRestoreJobName : String → String
  GetSecretName : String → String
  getCommand : String → String → String → String → String → String → Int → String
  getJob : String → T.Name → T.NodeSelector → List T.Toleration → String → String → String →
    String → T.Job
  MustForName : T.Component → String → Option T.Name
  AdaptFuncToDestroy : String → String → T.ResourceDestroy × Option GoError
  AdaptFuncToEnsure : T.Job → T.ResourceQuery × Option GoError
  ResourceDestroyToZitadelDestroy : T.ResourceDestroy → T.DestroyFunc
  EnsureFuncToQueryFunc : T.EnsureFunc → T.QueryFunc
  ResourceQueryToZitadelQuery : T.ResourceQuery → T.QueryFunc
  QueriersToEnsureFunc : T.Monitor → Bool → List T.QueryFunc → T.Client → T.Queried →
    T.EnsureFunc × Option GoError
  DestroyersToDestroyFunc : T.Monitor → List T.DestroyFunc → T.DestroyFunc

/-- The three results of `AdaptFunc`; `none` is nil. -/
structure Adapted (T : Types) where
  queryFunc : Option (T.Client → T.Queried → T.EnsureFunc × Option GoError)
  destroyFunc : Option T.DestroyFunc
  err : Option GoError

/-- The function `AdaptFunc`.  The result is `none` when `labels.MustForName` panics while
the job definition is built. -/
def AdaptFunc {T : Types} (deps : Deps T) (monitor : T.Monitor) (backupName : String)
    (ns : String) (componentLabels : T.Component) (bucketName : String) (timestamp : String)
    (nodeselector : T.NodeSelector) (tolerations : List T.Toleration)
    (checkDBReady : T.EnsureFunc) (secretKey : String) (dbURL : String) (dbPort : Int)
    (image : String) : Option (Adapted T) :=
  let jobName := deps.GetRestoreJobName backupName
  let command := deps.getCommand timestamp bucketName backupName certPath secretPath dbURL dbPort
  match deps.MustForName componentLabels jobName with
  | none => none
  | some nameLabels =>
    let jobdef := deps.getJob ns nameLabels nodeselector tolerations
      (deps.GetSecretName backupName) secretKey command image
    let destroyed := deps.AdaptFuncToDestroy jobName ns
    if destroyed.2.isSome then some { queryFunc := none, destroyFunc := none, err := destroyed.2 }
    else
      let destroyers := [deps.ResourceDestroyToZitadelDestroy destroyed.1]
      let ensured := deps.AdaptFuncToEnsure jobdef
      if ensured.2.isSome then some { queryFunc := none, destroyFunc := none, err := ensured.2 }
      else
        let queriers :=
          [deps.EnsureFuncToQueryFunc checkDBReady, deps.ResourceQueryToZitadelQuery ensured.1]
        some
          { queryFunc := some fun k8sClient queried =>
              deps.QueriersToEnsureFunc monitor false queriers k8sClient queried,
            destroyFunc := some (deps.DestroyersToDestroyFunc monitor destroyers),
            err := none }

/-- The types of a sample instance: names and jobs are strings, everything else is trivial. -/
@[reducible]
def sampleTypes : Types :=
  { Monitor := Unit, Component := String, Name := String, NodeSelector := Unit, Toleration := Unit,
    Job := String, Client := Unit, Queried := Unit, EnsureFunc := Unit, ResourceDestroy := Unit,
    ResourceQuery := Unit, DestroyFunc := Unit, QueryFunc := Unit }

/-- Sample functions: building the destroyer fails with `destroyErr`, building the ensurer
with `ensureErr` (`none` when the step succeeds). -/
def sampleDeps (destroyErr ensureErr : Option GoError) : Deps sampleTypes :=
  { GetRestoreJobName := fun backupName => "backup-" ++ backupName ++ "-restore",
    GetSecretName := fun backupName => "backup-" ++ backupName ++ "-secret",
    getCommand := fun timestamp bucketName backupName _ _ dbURL _ =>
      timestamp ++ bucketName ++ backupName ++ dbURL,
    getJob := fun _ nameLabels _ _ _ _ command _ => nameLabels ++ command,
    MustForName := fun componentLabels name =>
      if name = "" then none else some (componentLabels ++ name),
    AdaptFuncToDestroy := fun _ _ => ((), destroyErr),
    AdaptFuncToEnsure := fun _ => ((), ensureErr),
    ResourceDestroyToZitadelDestroy := fun _ => (),
    EnsureFuncToQueryFunc := fun _ => (),
    ResourceQueryToZitadelQuery := fun _ => (),
    QueriersToEnsureFunc := fun _ _ _ _ _ => ((), none),
    DestroyersToDestroyFunc := fun _ _ => () }

end restore

/-! ## Lemmas on the embedded library functions -/

namespace testify

theorem markFirst_eq_none {α : Type} [DecidableEq α] (x : α) :
    ∀ (bs : List α) (vs : List Bool), markFirst x bs vs = none ↔ x ∉ unvisited bs vs := by
  intro bs
  induction bs with
  | nil => intro vs; simp [markFirst, unvisited]
  | cons b bs ih =>
    intro vs
    cases vs with
    | nil => simp [markFirst, unvisited]
    | cons v vs =>
      by_cases hv : v = true
      · simp [markFirst, unvisited, hv, ih vs]
      · by_cases hb : b = x
        · simp [markFirst, unvisited, hv, ObjectsAreEqual, hb]
        · have hb2 : ¬ x = b := fun h => hb h.symm
          simp [markFirst, unvisited, hv, ObjectsAreEqual, hb, hb2, ih vs]

theorem markFirst_eq_some {α : Type} [DecidableEq α] (x : α) :
    ∀ (bs : List α) (vs ws : List Bool), markFirst x bs vs = some ws →
      unvisited bs ws = (unvisited bs vs).erase x := by
  intro bs
  induction bs with
  | nil => intro vs ws h; simp [markFirst] at h
  | cons b bs ih =>
    intro vs ws h
    cases vs with
    | nil => simp [markFirst] at h
    | cons v vs =>
      cases hr : markFirst x bs vs with
      | none =>
        by_cases hv : v = true
        · simp [markFirst, hv, hr] at h
        · by_cases hb : b = x
          · simp [markFirst, hv, ObjectsAreEqual, hb] at h
            subst h
            simp [unvisited, hv, hb]
          · simp [markFirst, hv, ObjectsAreEqual, hb, hr] at h
      | some r =>
        by_cases hv : v = true
        · simp [markFirst, hv, hr] at h
          subst h
          simp [unvisited, hv, ih vs r hr]
        · by_cases hb : b = x
          · simp [markFirst, hv, ObjectsAreEqual, hb] at h
            subst h
            simp [unvisited, hv, hb]
          · have hv2 : v = false := by simpa using hv
            subst hv2
            simp [markFirst, ObjectsAreEqual, hb, hr] at h
            subst h
            simp [unvisited, ih vs r hr, List.erase_cons, hb]

theorem unvisited_replicate_false {α : Type} (bs : List α) :
    unvisited bs (List.replicate bs.length false) = bs := by
  induction bs with
  | nil => simp [unvisited]
  | cons b bs ih => simp [List.replicate, unvisited, ih]

theorem foldl_diffStep {α : Type} [DecidableEq α] (listB : List α) :
    ∀ (listA : List α) (st : List α × List Bool),
      ((listA.foldl (diffStep listB) st).1 = [] ∧
        unvisited listB (listA.foldl (diffStep listB) st).2 = []) ↔
      (st.1 = [] ∧ listA.Perm (unvisited listB st.2)) := by
  intro listA
  induction listA with
  | nil =>
    intro st
    simp only [List.foldl_nil]
    constructor
    · rintro ⟨h1, h2⟩; exact ⟨h1, by rw [h2]⟩
    · rintro ⟨h1, h2⟩; exact ⟨h1, List.Perm.eq_nil h2.symm⟩
  | cons a as ih =>
    intro st
    simp only [List.foldl_cons]
    rw [ih, List.cons_perm_iff_perm_erase]
    cases hm : markFirst a listB st.2 with
    | none =>
      have hnot := (markFirst_eq_none a listB st.2).1 hm
      simp [diffStep, hm, hnot]
    | some ws =>
      have hmem : a ∈ unvisited listB st.2 := by
        by_contra hc
        rw [(markFirst_eq_none a listB st.2).2 hc] at hm
        cases hm
      simp [diffStep, hm, hmem, markFirst_eq_some a listB st.2 ws hm]

/-- The assertion `ElementsMatch` succeeds exactly on lists that are permutations of each
other: same elements with the same multiplicities. -/
theorem elementsMatch_iff_perm {α : Type} [DecidableEq α] (listA listB : List α) :
    ElementsMatch listA listB = true ↔ listA.Perm listB := by
  have key := foldl_diffStep listB listA ([], List.replicate listB.length false)
  rw [unvisited_replicate_false] at key
  unfold ElementsMatch
  by_cases he : (listA.isEmpty && listB.isEmpty) = true
  · rw [if_pos he]
    simp only [Bool.and_eq_true, List.isEmpty_iff] at he
    simp [he.1, he.2]
  · rw [if_neg he]
    simp only [diffLists, Bool.and_eq_true, beq_iff_eq, List.length_eq_zero]
    rw [key]
    simp

end testify

/-! ## Properties of the mock repository -/

namespace mock

open eventstore testify

section lemmas

variable {A P U Ev F : Type}

theorem handler_events_eq [DecidableEq A] [reflect.DeepEqual P] [DecidableEq U]
    (expectedCommands commands : List (Command A P U))
    (hlen : expectedCommands.length = commands.length) :
    expectPushHandler expectedCommands commands =
      ⟨some (commands.map fun command => { Command := command, sequence := 0, createdAt := 0 }),
        none, checkCommands 0 expectedCommands commands⟩ := by
  simp [expectPushHandler, hlen]

theorem failedHandler_eq [DecidableEq A] [reflect.DeepEqual P] [DecidableEq U]
    (err : Option GoError) (expectedCommands commands : List (Command A P U))
    (hlen : expectedCommands.length = commands.length) :
    expectPushFailedHandler err expectedCommands commands =
      ⟨none, err, checkCommands 0 expectedCommands commands⟩ := by
  simp [expectPushFailedHandler, hlen]

theorem handler_amount_eq [DecidableEq A] [reflect.DeepEqual P] [DecidableEq U]
    (expectedCommands commands : List (Command A P U))
    (hlen : expectedCommands.length ≠ commands.length) :
    expectPushHandler expectedCommands commands =
      ⟨none, some (unexpectedAmount expectedCommands.length commands.length), []⟩ := by
  simp [expectPushHandler, hlen]

theorem failedHandler_amount_eq [DecidableEq A] [reflect.DeepEqual P] [DecidableEq U]
    (err : Option GoError) (expectedCommands commands : List (Command A P U))
    (hlen : expectedCommands.length ≠ commands.length) :
    expectPushFailedHandler err expectedCommands commands =
      ⟨none, some (unexpectedAmount expectedCommands.length commands.length), []⟩ := by
  simp [expectPushFailedHandler, hlen]

theorem push_served [DecidableEq A] [reflect.DeepEqual P] [DecidableEq U] {Ctx : Type}
    (m : MockRepository A P U Ev F) (call : PushCall A P U) (ctx : Ctx)
    (commands : List (Command A P U)) (hpending : m.MockPusher.pushCalls = []) :
    (m.expectPushCall call).Push ctx commands =
      some (((call.run commands).events, (call.run commands).err),
        { m with failures := m.failures ++ (call.run commands).reports }) := by
  cases m with
  | mk mp mq fl =>
    cases mp with
    | mk calls =>
      simp only at hpending
      subst hpending
      simp [MockRepository.Push, MockRepository.expectPushCall, findMatch]

theorem filter_served {Ctx Q : Type} (m : MockRepository A P U Ev F) (call : FilterCall Ev)
    (ctx : Ctx) (q : Q) (hpending : m.MockQuerier.filterCalls = []) :
    (m.expectFilter call).Filter ctx q = some ((call.ret0, call.ret1), m) := by
  cases m with
  | mk mp mq fl =>
    cases mq with
    | mk fcalls icalls =>
      simp only at hpending
      subst hpending
      simp [MockRepository.Filter, MockRepository.expectFilter, findMatch]

theorem checkCommand_eq_nil_iff [DecidableEq A] [reflect.DeepEqual P] [DecidableEq U] (i : Nat)
    (e c : Command A P U) :
    checkCommand i e c = [] ↔
      (e.Aggregate = c.Aggregate ∧ e.Creator = c.Creator ∧ e.EventType = c.EventType ∧
        e.Revision = c.Revision ∧ ObjectsAreEqualAny e.Payload c.Payload = true ∧
        ElementsMatch e.UniqueConstraints c.UniqueConstraints = true) := by
  unfold checkCommand
  simp only [List.append_eq_nil, ObjectsAreEqual, decide_eq_true_eq, ite_eq_left_iff,
    List.cons_ne_nil, imp_false, not_not]
  tauto

theorem objectsAreEqualAny_iff_eq [reflect.DeepEqual P]
    (hlawful : ∀ x y : P, reflect.DeepEqual.deepEqual x y = true ↔ x = y) (a b : Option P) :
    ObjectsAreEqualAny a b = true ↔ a = b := by
  cases a <;> cases b <;> simp [ObjectsAreEqualAny, hlawful]

theorem checkCommand_index [DecidableEq A] [reflect.DeepEqual P] [DecidableEq U] (i : Nat)
    (e c : Command A P U) (m : Mismatch) (hm : m ∈ checkCommand i e c) : m.index = i := by
  simp only [checkCommand, List.mem_append] at hm
  rcases hm with (((((h | h) | h) | h) | h) | h) <;> split_ifs at h <;> simp_all

theorem mem_checkCommands [DecidableEq A] [reflect.DeepEqual P] [DecidableEq U] (m : Mismatch)
    (es : List (Command A P U)) :
    ∀ (cs : List (Command A P U)) (k : Nat), m ∈ checkCommands k es cs ↔
      ∃ j e c, es[j]? = some e ∧ cs[j]? = some c ∧ m ∈ checkCommand (k + j) e c := by
  induction es with
  | nil => intro cs k; simp [checkCommands]
  | cons e es ih =>
    intro cs k
    cases cs with
    | nil => simp [checkCommands]
    | cons c cs =>
      simp only [checkCommands, List.mem_append, ih cs (k + 1)]
      constructor
      · rintro (h | ⟨j, e2, c2, he, hc, hm⟩)
        · exact ⟨0, e, c, by simp, by simp, by simpa using h⟩
        · refine ⟨j + 1, e2, c2, by simpa using he, by simpa using hc, ?_⟩
          rw [show k + (j + 1) = k + 1 + j by omega]
          exact hm
      · rintro ⟨j, e2, c2, he, hc, hm⟩
        cases j with
        | zero =>
          simp only [List.getElem?_cons_zero, Option.some.injEq] at he hc
          subst he hc
          exact Or.inl (by simpa using hm)
        | succ j =>
          refine Or.inr ⟨j, e2, c2, by simpa using he, by simpa using hc, ?_⟩
          rw [show k + 1 + j = k + (j + 1) by omega]
          exact hm

theorem no_report_at_iff [DecidableEq A] [reflect.DeepEqual P] [DecidableEq U]
    (es cs : List (Command A P U)) (i : Nat) (e c : Command A P U)
    (he : es[i]? = some e) (hc : cs[i]? = some c) :
    (∀ m ∈ checkCommands 0 es cs, m.index ≠ i) ↔ checkCommand i e c = [] := by
  constructor
  · intro h
    by_contra hne
    obtain ⟨m, hm⟩ := List.exists_mem_of_ne_nil _ hne
    have hmem : m ∈ checkCommands 0 es cs :=
      (mem_checkCommands m es cs 0).2 ⟨i, e, c, he, hc, by simpa using hm⟩
    exact h m hmem (checkCommand_index i e c m hm)
  · intro hnil m hm hidx
    obtain ⟨j, e2, c2, he2, hc2, hm2⟩ := (mem_checkCommands m es cs 0).1 hm
    have hj : m.index = 0 + j := checkCommand_index _ _ _ m hm2
    have hji : j = i := by omega
    subst hji
    rw [he] at he2
    rw [hc] at hc2
    cases he2
    cases hc2
    rw [Nat.zero_add, hnil] at hm2
    cases hm2

theorem elementsMatch_perm_right [DecidableEq U] (xs ys zs : List U) (h : ys.Perm zs) :
    ElementsMatch xs ys = ElementsMatch xs zs := by
  rw [Bool.eq_iff_iff, elementsMatch_iff_perm, elementsMatch_iff_perm]
  exact ⟨fun p => p.trans h, fun p => p.trans h.symm⟩

theorem checkCommand_constraint_order [DecidableEq A] [reflect.DeepEqual P] [DecidableEq U] (i : Nat)
    (e c d : Command A P U) (h : sameUpToConstraintOrder c d) :
    checkCommand i e c = checkCommand i e d := by
  obtain ⟨h1, h2, h3, h4, h5, h6⟩ := h
  unfold checkCommand
  rw [h1, h2, h3, h4, h5, elementsMatch_perm_right e.UniqueConstraints _ _ h6]

theorem checkCommands_constraint_order [DecidableEq A] [reflect.DeepEqual P] [DecidableEq U]
    (es : List (Command A P U)) :
    ∀ (i : Nat) (cs ds : List (Command A P U)), List.Forall₂ sameUpToConstraintOrder cs ds →
      checkCommands i es cs = checkCommands i es ds := by
  induction es with
  | nil => intro i cs ds _; simp [checkCommands]
  | cons e es ih =>
    intro i cs ds h
    cases h with
    | nil => rfl
    | cons hcd hrest =>
      simp only [checkCommands]
      rw [checkCommand_constraint_order i e _ _ hcd, ih (i + 1) _ _ hrest]

theorem wrap_constraint_order (cs : List (Command A P U)) :
    ∀ ds : List (Command A P U), List.Forall₂ sameUpToConstraintOrder cs ds →
      List.Forall₂ eventsUpToConstraintOrder
        (cs.map fun command => ({ Command := command, sequence := 0, createdAt := 0 } : mockEvent A P U))
        (ds.map fun command => ({ Command := command, sequence := 0, createdAt := 0 } : mockEvent A P U)) := by
  intro ds h
  induction h with
  | nil => exact List.Forall₂.nil
  | cons hcd _ ih => exact List.Forall₂.cons ⟨hcd, rfl, rfl⟩ ih

end lemmas

section claims

variable {A P U Ev F : Type} [DecidableEq A] [reflect.DeepEqual P] [DecidableEq U]

/-- C1: when the batch has as many commands as were expected, the Push handler installed by
`ExpectPush` returns a nil error and a non-nil list of events, one per received command, whose
i-th event wraps the i-th received command (hence the same aggregate, creator, type,
revision, payload and unique constraints); nothing is assumed about how the received
commands compare with the expected ones.  A `Push` on the mock served by this expectation
returns these events and the nil error. -/
theorem expectPush_wraps_commands {Ctx : Type} (m : MockRepository A P U Ev F) (ctx : Ctx)
    (expectedCommands commands : List (Command A P U))
    (hlen : expectedCommands.length = commands.length)
    (hpending : m.MockPusher.pushCalls = []) :
    (expectPushHandler expectedCommands commands).err = none ∧
    (∃ events, (expectPushHandler expectedCommands commands).events = some events ∧
      events.length = commands.length ∧
      ∀ (i : Nat) (hi : i < commands.length) (hj : i < events.length),
        (events.get ⟨i, hj⟩).Command = commands.get ⟨i, hi⟩) ∧
    (∃ m2, (m.ExpectPush expectedCommands).Push ctx commands =
      some (((expectPushHandler expectedCommands commands).events, none), m2)) := by
  have hserved := push_served m (PushCall.expectPush expectedCommands) ctx commands hpending
  rw [handler_events_eq expectedCommands commands hlen]
  refine ⟨rfl, ⟨_, rfl, by simp, ?_⟩, ?_⟩
  · intro i hi hj
    simp
  · refine ⟨{ m with failures := m.failures ++
        ((PushCall.expectPush expectedCommands).run commands).reports }, ?_⟩
    rw [MockRepository.ExpectPush, hserved]
    simp [PushCall.run, handler_events_eq expectedCommands commands hlen]

/-- Witness of C1 on a batch of two commands that differ from the expected ones. -/
theorem expectPush_wraps_commands_witness :
    (expectPushHandler [sampleCommand [], sampleCommand ["email"]]
      [sampleCommand ["x"], sampleCommand []]).err = none ∧
    (∃ events, (expectPushHandler [sampleCommand [], sampleCommand ["email"]]
        [sampleCommand ["x"], sampleCommand []]).events = some events ∧
      events.length = [sampleCommand ["x"], sampleCommand []].length ∧
      ∀ (i : Nat) (hi : i < [sampleCommand ["x"], sampleCommand []].length) (hj : i < events.length),
        (events.get ⟨i, hj⟩).Command = [sampleCommand ["x"], sampleCommand []].get ⟨i, hi⟩) ∧
    (∃ m2, (sampleRepo.ExpectPush [sampleCommand [], sampleCommand ["email"]]).Push ()
        [sampleCommand ["x"], sampleCommand []] =
      some (((expectPushHandler [sampleCommand [], sampleCommand ["email"]]
        [sampleCommand ["x"], sampleCommand []]).events, none), m2)) :=
  expectPush_wraps_commands sampleRepo () [sampleCommand [], sampleCommand ["email"]]
    [sampleCommand ["x"], sampleCommand []] rfl rfl

/-- C2, as stated, fails: the single event returned for a single pushed command has
`Sequence()` 0, not 1. -/
theorem expectPush_single_sequence_zero :
    ∃ ev, (expectPushHandler [sampleCommand ["email"]] [sampleCommand ["email"]]).events = some [ev] ∧
      ev.Sequence = 0 ∧ ev.Sequence ≠ 1 :=
  ⟨_, rfl, rfl, by decide⟩

/-- C2, amended: for every batch with as many commands as expected, every event returned by
the handler installed by `ExpectPush` has `Sequence()` 0; the mock assigns no sequence
numbers. -/
theorem expectPush_sequences_zero (expectedCommands commands : List (Command A P U))
    (hlen : expectedCommands.length = commands.length) :
    ∃ events, (expectPushHandler expectedCommands commands).events = some events ∧
      events.map mockEvent.Sequence = List.replicate commands.length 0 := by
  rw [handler_events_eq expectedCommands commands hlen]
  refine ⟨_, rfl, ?_⟩
  rw [List.map_map, List.eq_replicate_iff]
  constructor
  · simp
  · intro b hb
    simp only [List.mem_map, Function.comp_apply, mockEvent.Sequence] at hb
    obtain ⟨_, _, rfl⟩ := hb
    rfl

/-- Witness of the amended C2 on a batch of three commands. -/
theorem expectPush_sequences_zero_witness :
    ∃ events, (expectPushHandler [sampleCommand [], sampleCommand [], sampleCommand []]
        [sampleCommand ["a"], sampleCommand ["b"], sampleCommand ["c"]]).events = some events ∧
      events.map mockEvent.Sequence = List.replicate 3 0 :=
  expectPush_sequences_zero [sampleCommand [], sampleCommand [], sampleCommand []]
    [sampleCommand ["a"], sampleCommand ["b"], sampleCommand ["c"]] rfl

/-- C3: for every error `err` and every batch with as many commands as expected, the Push
handler installed by `ExpectPushFailed` returns exactly `err` together with the nil event
list, and so does a `Push` on the mock served by this expectation. -/
theorem expectPushFailed_returns_err {Ctx : Type} (m : MockRepository A P U Ev F) (ctx : Ctx)
    (err : GoError) (expectedCommands commands : List (Command A P U))
    (hlen : expectedCommands.length = commands.length)
    (hpending : m.MockPusher.pushCalls = []) :
    (expectPushFailedHandler (some err) expectedCommands commands).err = some err ∧
    (expectPushFailedHandler (some err) expectedCommands commands).events = none ∧
    (∃ m2, (m.ExpectPushFailed (some err) expectedCommands).Push ctx commands =
      some ((none, some err), m2)) := by
  have hserved :=
    push_served m (PushCall.expectPushFailed (some err) expectedCommands) ctx commands hpending
  rw [failedHandler_eq (some err) expectedCommands commands hlen]
  refine ⟨rfl, rfl, { m with failures := m.failures ++
      ((PushCall.expectPushFailed (some err) expectedCommands).run commands).reports }, ?_⟩
  rw [MockRepository.ExpectPushFailed, hserved]
  simp [PushCall.run, failedHandler_eq (some err) expectedCommands commands hlen]

/-- Witness of C3 on a batch of one command. -/
theorem expectPushFailed_returns_err_witness :
    (expectPushFailedHandler (some "constraint violation") [sampleCommand ["email"]]
      [sampleCommand ["email"]]).err = some "constraint violation" ∧
    (expectPushFailedHandler (some "constraint violation") [sampleCommand ["email"]]
      [sampleCommand ["email"]]).events = none ∧
    (∃ m2, (sampleRepo.ExpectPushFailed (some "constraint violation")
        [sampleCommand ["email"]]).Push () [sampleCommand ["email"]] =
      some ((none, some "constraint violation"), m2)) :=
  expectPushFailed_returns_err sampleRepo () "constraint violation" [sampleCommand ["email"]]
    [sampleCommand ["email"]] rfl rfl

/-- C4, as stated, fails on the constraints and on the payload.  An expected command
declaring the constraint `u` twice and a received command declaring it once agree on every
ordered accessor and have the same set of constraints, yet the handler reports a mismatch
on the unique constraints of position 0.  And a command whose payload is NaN, received
exactly as expected, is reported as a payload mismatch, because NaN is not deeply equal to
itself. -/
theorem expectPush_reports_equal_sets :
    (sampleCommand ["u", "u"]).Aggregate = (sampleCommand ["u"]).Aggregate ∧
    (sampleCommand ["u", "u"]).Creator = (sampleCommand ["u"]).Creator ∧
    (sampleCommand ["u", "u"]).EventType = (sampleCommand ["u"]).EventType ∧
    (sampleCommand ["u", "u"]).Revision = (sampleCommand ["u"]).Revision ∧
    (sampleCommand ["u", "u"]).Payload = (sampleCommand ["u"]).Payload ∧
    (∀ x, x ∈ (sampleCommand ["u", "u"]).UniqueConstraints ↔
      x ∈ (sampleCommand ["u"]).UniqueConstraints) ∧
    (expectPushHandler [sampleCommand ["u", "u"]] [sampleCommand ["u"]]).reports =
      [⟨0, Field.UniqueConstraints⟩] ∧
    (expectPushHandler [nanCommand] [nanCommand]).reports = [⟨0, Field.Payload⟩] := by
  refine ⟨rfl, rfl, rfl, rfl, rfl, ?_, by decide, by decide⟩
  intro x
  simp [sampleCommand]

/-- C4, amended: for batches of equal length and the expected command `e` and the received
command `c` at position `i`, the handler installed by `ExpectPush` reports no mismatch for
position `i` if and only if `e` and `c` have equal aggregate, creator, type and revision,
their payloads are accepted by `assert.ObjectsAreEqual` (both nil, or both non-nil and
deeply equal) and their unique-constraint lists are permutations of each other (the same
elements with the same multiplicities, in any order).  For payloads on which
`reflect.DeepEqual` is equality, the payload condition is that the payloads are equal. -/
theorem expectPush_no_mismatch_iff (expectedCommands commands : List (Command A P U)) (i : Nat)
    (e c : Command A P U) (hlen : expectedCommands.length = commands.length)
    (he : expectedCommands[i]? = some e) (hc : commands[i]? = some c) :
    ((∀ m ∈ (expectPushHandler expectedCommands commands).reports, m.index ≠ i) ↔
      (e.Aggregate = c.Aggregate ∧ e.Creator = c.Creator ∧ e.EventType = c.EventType ∧
        e.Revision = c.Revision ∧ ObjectsAreEqualAny e.Payload c.Payload = true ∧
        e.UniqueConstraints.Perm c.UniqueConstraints)) ∧
    ((∀ x y : P, reflect.DeepEqual.deepEqual x y = true ↔ x = y) →
      ((∀ m ∈ (expectPushHandler expectedCommands commands).reports, m.index ≠ i) ↔
        (e.Aggregate = c.Aggregate ∧ e.Creator = c.Creator ∧ e.EventType = c.EventType ∧
          e.Revision = c.Revision ∧ e.Payload = c.Payload ∧
          e.UniqueConstraints.Perm c.UniqueConstraints))) := by
  have hkey : (∀ m ∈ (expectPushHandler expectedCommands commands).reports, m.index ≠ i) ↔
      (e.Aggregate = c.Aggregate ∧ e.Creator = c.Creator ∧ e.EventType = c.EventType ∧
        e.Revision = c.Revision ∧ ObjectsAreEqualAny e.Payload c.Payload = true ∧
        e.UniqueConstraints.Perm c.UniqueConstraints) := by
    rw [handler_events_eq expectedCommands commands hlen]
    simp only
    rw [no_report_at_iff expectedCommands commands i e c he hc, checkCommand_eq_nil_iff,
      elementsMatch_iff_perm]
  refine ⟨hkey, ?_⟩
  intro hlawful
  rw [hkey, objectsAreEqualAny_iff_eq hlawful]

/-- Witness of the amended C4: position 1 is not reported, its constraints being a
permutation of the expected ones, while position 0 is reported. -/
theorem expectPush_no_mismatch_iff_witness :
    (expectPushHandler [sampleCommand [], sampleCommand ["a", "b"]]
      [sampleCommand ["x"], sampleCommand ["b", "a"]]).reports = [⟨0, Field.UniqueConstraints⟩] ∧
    (∀ m ∈ (expectPushHandler [sampleCommand [], sampleCommand ["a", "b"]]
      [sampleCommand ["x"], sampleCommand ["b", "a"]]).reports, m.index ≠ 1) ∧
    ((∀ m ∈ (expectPushHandler [sampleCommand [], sampleCommand ["a", "b"]]
        [sampleCommand ["x"], sampleCommand ["b", "a"]]).reports, m.index ≠ 1) ↔
      ((sampleCommand ["a", "b"]).Aggregate = (sampleCommand ["b", "a"]).Aggregate ∧
        (sampleCommand ["a", "b"]).Creator = (sampleCommand ["b", "a"]).Creator ∧
        (sampleCommand ["a", "b"]).EventType = (sampleCommand ["b", "a"]).EventType ∧
        (sampleCommand ["a", "b"]).Revision = (sampleCommand ["b", "a"]).Revision ∧
        (sampleCommand ["a", "b"]).Payload = (sampleCommand ["b", "a"]).Payload ∧
        (sampleCommand ["a", "b"]).UniqueConstraints.Perm
          (sampleCommand ["b", "a"]).UniqueConstraints)) :=
  ⟨by decide,
    (expectPush_no_mismatch_iff [sampleCommand [], sampleCommand ["a", "b"]]
      [sampleCommand ["x"], sampleCommand ["b", "a"]] 1 (sampleCommand ["a", "b"])
      (sampleCommand ["b", "a"]) rfl rfl rfl).1.2
      ⟨rfl, rfl, rfl, rfl, by decide, List.Perm.swap "b" "a" []⟩,
    (expectPush_no_mismatch_iff [sampleCommand [], sampleCommand ["a", "b"]]
      [sampleCommand ["x"], sampleCommand ["b", "a"]] 1 (sampleCommand ["a", "b"])
      (sampleCommand ["b", "a"]) rfl rfl rfl).2
      (fun x y => by simp [reflect.DeepEqual.deepEqual])⟩

/-- C5, as stated, fails for `ExpectPush`: swapping the two unique constraints of the
received command changes the value the handler returns, because the returned event wraps
the received command with its constraints in the received order. -/
theorem expectPush_constraint_order_changes_events :
    sameUpToConstraintOrder (sampleCommand ["a", "b"]) (sampleCommand ["b", "a"]) ∧
    (expectPushHandler [sampleCommand ["a", "b"]] [sampleCommand ["a", "b"]]).events ≠
      (expectPushHandler [sampleCommand ["a", "b"]] [sampleCommand ["b", "a"]]).events := by
  refine ⟨⟨rfl, rfl, rfl, rfl, rfl, ?_⟩, by decide⟩
  exact List.Perm.swap "b" "a" []

/-- C5, amended: when the received commands are replaced by commands that differ only in the
order of their unique constraints, the handler of `ExpectPushFailed` returns and records
exactly the same, and the handler of `ExpectPush` returns the same error, records the same
mismatches and returns events that pairwise differ only in the order of the unique
constraints of the wrapped command. -/
theorem push_handlers_constraint_order (err : Option GoError)
    (expectedCommands commands permuted : List (Command A P U))
    (h : List.Forall₂ sameUpToConstraintOrder commands permuted) :
    expectPushFailedHandler err expectedCommands commands =
      expectPushFailedHandler err expectedCommands permuted ∧
    (expectPushHandler expectedCommands commands).err =
      (expectPushHandler expectedCommands permuted).err ∧
    (expectPushHandler expectedCommands commands).reports =
      (expectPushHandler expectedCommands permuted).reports ∧
    Option.Rel (List.Forall₂ eventsUpToConstraintOrder)
      (expectPushHandler expectedCommands commands).events
      (expectPushHandler expectedCommands permuted).events := by
  have hlen : commands.length = permuted.length := h.length_eq
  have hchk := checkCommands_constraint_order expectedCommands 0 commands permuted h
  by_cases hl : expectedCommands.length = commands.length
  · have hl2 : expectedCommands.length = permuted.length := hl.trans hlen
    rw [failedHandler_eq err _ _ hl, failedHandler_eq err _ _ hl2, handler_events_eq _ _ hl,
      handler_events_eq _ _ hl2, hchk]
    exact ⟨rfl, rfl, rfl, Option.Rel.some (wrap_constraint_order commands permuted h)⟩
  · have hl2 : ¬ expectedCommands.length = permuted.length := fun hc => hl (hc.trans hlen.symm)
    rw [failedHandler_amount_eq err _ _ hl, failedHandler_amount_eq err _ _ hl2,
      handler_amount_eq _ _ hl, handler_amount_eq _ _ hl2, hlen]
    exact ⟨rfl, rfl, rfl, Option.Rel.none⟩

/-- Witness of the amended C5: the second received command has its constraints swapped. -/
theorem push_handlers_constraint_order_witness :
    expectPushFailedHandler (some "failed") [sampleCommand [], sampleCommand ["b", "a"]]
        [sampleCommand [], sampleCommand ["a", "b"]] =
      expectPushFailedHandler (some "failed") [sampleCommand [], sampleCommand ["b", "a"]]
        [sampleCommand [], sampleCommand ["b", "a"]] ∧
    (expectPushHandler [sampleCommand [], sampleCommand ["b", "a"]]
        [sampleCommand [], sampleCommand ["a", "b"]]).err =
      (expectPushHandler [sampleCommand [], sampleCommand ["b", "a"]]
        [sampleCommand [], sampleCommand ["b", "a"]]).err ∧
    (expectPushHandler [sampleCommand [], sampleCommand ["b", "a"]]
        [sampleCommand [], sampleCommand ["a", "b"]]).reports =
      (expectPushHandler [sampleCommand [], sampleCommand ["b", "a"]]
        [sampleCommand [], sampleCommand ["b", "a"]]).reports ∧
    Option.Rel (List.Forall₂ eventsUpToConstraintOrder)
      (expectPushHandler [sampleCommand [], sampleCommand ["b", "a"]]
        [sampleCommand [], sampleCommand ["a", "b"]]).events
      (expectPushHandler [sampleCommand [], sampleCommand ["b", "a"]]
        [sampleCommand [], sampleCommand ["b", "a"]]).events :=
  push_handlers_constraint_order (some "failed") [sampleCommand [], sampleCommand ["b", "a"]]
    [sampleCommand [], sampleCommand ["a", "b"]] [sampleCommand [], sampleCommand ["b", "a"]]
    (List.Forall₂.cons ⟨rfl, rfl, rfl, rfl, rfl, List.Perm.refl _⟩
      (List.Forall₂.cons ⟨rfl, rfl, rfl, rfl, rfl, List.Perm.swap "b" "a" []⟩ List.Forall₂.nil))

end claims

section querier

variable {A P U Ev F : Type}

/-- C6, as stated, fails: configured with the identifier `i1` twice, `InstanceIDs` returns
it twice. -/
theorem instanceIDs_returns_duplicates :
    (sampleRepo.ExpectInstanceIDs [] (some ["i1", "i1"])).InstanceIDs (fun _ _ => false) () 0 =
      some ((some ["i1", "i1"], none), sampleRepo) ∧
    ¬ (["i1", "i1"] : List String).Nodup := by
  constructor
  · rfl
  · decide

/-- C6, amended: for every query accepted by the expectation's matcher (every query when
`hasFilters` is empty), `InstanceIDs` served by the expectation installed with
`ExpectInstanceIDs` returns exactly the configured list of instance IDs, in the configured
order and with the configured repetitions, and a nil error. -/
theorem instanceIDs_returns_configured {Ctx Q : Type} (filterMatches : List (List F) → Q → Bool)
    (m : MockRepository A P U Ev F) (ctx : Ctx) (q : Q) (hasFilters : List F)
    (instanceIDs : Slice String)
    (hpending : m.MockQuerier.instanceIDsCalls = [])
    (hmatch : hasFilters = [] ∨ filterMatches [hasFilters] q = true) :
    (m.ExpectInstanceIDs hasFilters instanceIDs).InstanceIDs filterMatches ctx q =
      some ((instanceIDs, none), m) := by
  cases m with
  | mk mp mq fl =>
    cases mq with
    | mk fcalls icalls =>
      simp only at hpending
      subst hpending
      rcases hmatch with h | h
      · subst h
        simp [MockRepository.InstanceIDs, MockRepository.ExpectInstanceIDs,
          MockRepository.expectInstanceIDs, findMatch, Matcher.Matches]
      · cases hasFilters with
        | nil =>
          simp [MockRepository.InstanceIDs, MockRepository.ExpectInstanceIDs,
            MockRepository.expectInstanceIDs, findMatch, Matcher.Matches]
        | cons f fs =>
          simp [MockRepository.InstanceIDs, MockRepository.ExpectInstanceIDs,
            MockRepository.expectInstanceIDs, findMatch, Matcher.Matches, h]

/-- Witness of the amended C6 with a filter list that the matcher accepts. -/
theorem instanceIDs_returns_configured_witness :
    (sampleRepo.ExpectInstanceIDs [7] (some ["i1", "i2"])).InstanceIDs
        (fun (fs : List (List Nat)) (q : Nat) => fs == [[q]]) () 7 =
      some ((some ["i1", "i2"], none), sampleRepo) :=
  instanceIDs_returns_configured (fun (fs : List (List Nat)) (q : Nat) => fs == [[q]])
    sampleRepo () 7 [7] (some ["i1", "i2"]) rfl (Or.inr (by decide))

/-- C7: for every context and every search query, a `Filter` call served by the expectation
installed with `ExpectFilterNoEventsNoError` returns an event list of length zero and a nil
error. -/
theorem filter_noEvents_noError {Ctx Q : Type} (m : MockRepository A P U Ev F) (ctx : Ctx) (q : Q)
    (hpending : m.MockQuerier.filterCalls = []) :
    ∃ events, m.ExpectFilterNoEventsNoError.Filter ctx q = some ((events, none), m) ∧
      Slice.len events = 0 := by
  refine ⟨none, ?_, rfl⟩
  rw [MockRepository.ExpectFilterNoEventsNoError, filter_served m _ ctx q hpending]

/-- Witness of C7 on a fresh mock repository. -/
theorem filter_noEvents_noError_witness :
    ∃ events, sampleRepo.ExpectFilterNoEventsNoError.Filter () 0 = some ((events, none), sampleRepo) ∧
      Slice.len events = 0 :=
  filter_noEvents_noError sampleRepo () 0 rfl

/-- C8, as stated, fails: with the events configured once, the first `Filter` returns them
and leaves the mock without a pending expectation, on which the second `Filter` with the
identical query returns nothing (the controller aborts the test). -/
theorem filter_second_call_unserved :
    (sampleRepo.ExpectFilterEvents (some ["e1", "e2"])).Filter () 0 =
      some ((some ["e1", "e2"], none), sampleRepo) ∧
    sampleRepo.Filter () 0 = none := by
  constructor <;> rfl

/-- C8, amended: a `Filter` call served by an expectation installed with `ExpectFilterEvents`
returns exactly the configured events, in order, with a nil error, for every query; each
expectation serves one call, and with the same events installed twice two consecutive
`Filter` calls with the identical query both return them. -/
theorem filter_events_twice {Ctx Q : Type} (m : MockRepository A P U Ev F) (ctx : Ctx) (q : Q)
    (events : Slice Ev) (hpending : m.MockQuerier.filterCalls = []) :
    ((m.ExpectFilterEvents events).ExpectFilterEvents events).Filter ctx q =
      some ((events, none), m.ExpectFilterEvents events) ∧
    (m.ExpectFilterEvents events).Filter ctx q = some ((events, none), m) := by
  constructor
  · cases m with
    | mk mp mq fl =>
      cases mq with
      | mk fcalls icalls =>
        simp only at hpending
        subst hpending
        simp [MockRepository.Filter, MockRepository.ExpectFilterEvents,
          MockRepository.expectFilter, findMatch]
  · rw [MockRepository.ExpectFilterEvents, filter_served m _ ctx q hpending]

/-- Witness of the amended C8 on a fresh mock repository. -/
theorem filter_events_twice_witness :
    ((sampleRepo.ExpectFilterEvents (some ["e1", "e2"])).ExpectFilterEvents
        (some ["e1", "e2"])).Filter () 0 =
      some ((some ["e1", "e2"], none), sampleRepo.ExpectFilterEvents (some ["e1", "e2"])) ∧
    (sampleRepo.ExpectFilterEvents (some ["e1", "e2"])).Filter () 0 =
      some ((some ["e1", "e2"], none), sampleRepo) :=
  filter_events_twice sampleRepo () 0 (some ["e1", "e2"]) rfl

end querier

end mock

/-! ## Count mismatches, `DataAsBytes` and `Unmarshal` -/

namespace mock

open eventstore testify

section amounts

variable {A P U : Type} [DecidableEq A] [reflect.DeepEqual P] [DecidableEq U]

/-- C11: the Push handler installed by `ExpectPush` returns a non-nil error if and only if
the number of received commands differs from the number of expected commands; when the
numbers differ, that handler and the handler installed by `ExpectPushFailed` both return
the count-mismatch error (the latter instead of its configured error `err`) together with
the nil event list. -/
theorem push_handlers_amount_error (err : Option GoError)
    (expectedCommands commands : List (Command A P U)) :
    ((expectPushHandler expectedCommands commands).err ≠ none ↔
      expectedCommands.length ≠ commands.length) ∧
    (expectedCommands.length ≠ commands.length →
      (expectPushHandler expectedCommands commands).events = none ∧
      (expectPushHandler expectedCommands commands).err =
        some (unexpectedAmount expectedCommands.length commands.length) ∧
      (expectPushFailedHandler err expectedCommands commands).events = none ∧
      (expectPushFailedHandler err expectedCommands commands).err =
        some (unexpectedAmount expectedCommands.length commands.length)) := by
  constructor
  · by_cases hlen : expectedCommands.length = commands.length
    · rw [handler_events_eq _ _ hlen]
      simp [hlen]
    · rw [handler_amount_eq _ _ hlen]
      simp [hlen]
  · intro hlen
    rw [handler_amount_eq _ _ hlen, failedHandler_amount_eq err _ _ hlen]
    exact ⟨rfl, rfl, rfl, rfl⟩

/-- Witness of C11: one command expected, two received, configured error `failed`. -/
theorem push_handlers_amount_error_witness :
    [sampleCommand ["email"]].length ≠ [sampleCommand ["email"], sampleCommand []].length ∧
    (expectPushHandler [sampleCommand ["email"]]
      [sampleCommand ["email"], sampleCommand []]).events = none ∧
    (expectPushHandler [sampleCommand ["email"]]
      [sampleCommand ["email"], sampleCommand []]).err = some (unexpectedAmount 1 2) ∧
    (expectPushFailedHandler (some "failed") [sampleCommand ["email"]]
      [sampleCommand ["email"], sampleCommand []]).events = none ∧
    (expectPushFailedHandler (some "failed") [sampleCommand ["email"]]
      [sampleCommand ["email"], sampleCommand []]).err = some (unexpectedAmount 1 2) :=
  ⟨by decide,
    (push_handlers_amount_error (some "failed") [sampleCommand ["email"]]
      [sampleCommand ["email"], sampleCommand []]).2 (by decide)⟩

end amounts

section payloads

variable {A P U : Type}

theorem unmarshal_never_returns (e : mockEvent A P U) (ptr : Option (reflect.Object P))
    (heap : reflect.Heap P) : ∃ msg, e.Unmarshal ptr heap = Except.error msg := by
  cases ptr with
  | none => exact ⟨_, rfl⟩
  | some o => exact ⟨_, rfl⟩

/-- C12 at its failing input: for the sample event, whose command has the payload
`name:alice`, and a pointer to the payload variable at location 0, `Unmarshal` panics in
`Set` with `using unaddressable value`; it neither stores the payload nor returns. -/
theorem unmarshal_panics_unaddressable :
    sampleEvent.Command.Payload = some "name:alice" ∧
    sampleHeap 0 = some (reflect.Object.payload "") ∧
    sampleEvent.Unmarshal (some (reflect.Object.pointer 0)) sampleHeap =
      Except.error "reflect: reflect.Value.Set using unaddressable value" :=
  ⟨rfl, rfl, rfl⟩

/-- C13: `DataAsBytes` returns nil when the payload of the command is nil; for a non-nil
payload it returns what `json.Marshal` returns for it when that succeeds; and it panics
exactly when the payload is non-nil and `json.Marshal` returns an error for it. -/
theorem dataAsBytes_cases (jsonMarshal : P → Slice Nat × Option GoError) (e : mockEvent A P U) :
    (e.Command.Payload = none → e.DataAsBytes jsonMarshal = Except.ok none) ∧
    (∀ p, e.Command.Payload = some p → (jsonMarshal p).2 = none →
      e.DataAsBytes jsonMarshal = Except.ok (jsonMarshal p).1) ∧
    ((∃ msg, e.DataAsBytes jsonMarshal = Except.error msg) ↔
      ∃ p, e.Command.Payload = some p ∧ (jsonMarshal p).2 ≠ none) := by
  refine ⟨?_, ?_, ?_⟩
  · intro h
    simp [mockEvent.DataAsBytes, h]
  · intro p h hm
    simp [mockEvent.DataAsBytes, h, hm]
  · cases hp : e.Command.Payload with
    | none => simp [mockEvent.DataAsBytes, hp]
    | some p =>
      cases hm : (jsonMarshal p).2 with
      | none => simp [mockEvent.DataAsBytes, hp, hm]
      | some err => simp [mockEvent.DataAsBytes, hp, hm]

/-- Witness of C13: a nil payload, an encodable payload and a payload whose encoding fails. -/
theorem dataAsBytes_cases_witness :
    mockEvent.DataAsBytes (fun p : String => (some [p.length], none))
      { sampleEvent with Command := { sampleEvent.Command with Payload := none } } = Except.ok none ∧
    mockEvent.DataAsBytes (fun p : String => (some [p.length], none)) sampleEvent =
      Except.ok (some ["name:alice".length]) ∧
    (∃ msg, mockEvent.DataAsBytes (fun _ : String => (none, some "unsupported type")) sampleEvent =
      Except.error msg) :=
  ⟨(dataAsBytes_cases (fun p : String => (some [p.length], none))
      { sampleEvent with Command := { sampleEvent.Command with Payload := none } }).1 rfl,
    (dataAsBytes_cases (fun p : String => (some [p.length], none)) sampleEvent).2.1
      "name:alice" rfl rfl,
    (dataAsBytes_cases (fun _ : String => (none, some "unsupported type")) sampleEvent).2.2.2
      ⟨"name:alice", rfl, by simp⟩⟩

end payloads

end mock

/-! ## The error handling of the restore job -/

namespace restore

/-- C14: when the job labels are built without a panic, `AdaptFunc` returns, and with
`destroyed` the result of `job.AdaptFuncToDestroy` and `ensured` the result of
`job.AdaptFuncToEnsure` on the job definition: the returned error is non-nil if and only
if one of the two steps returned an error; it is the error of the destroyer when that step
fails and otherwise the error of the ensurer, and both returned functions are then nil;
when neither step fails the error is nil and a query function and the destroy function
built from the destroyer are returned. -/
theorem adaptFunc_error_iff {T : Types} (deps : Deps T) (monitor : T.Monitor)
    (backupName ns : String) (componentLabels : T.Component) (bucketName timestamp : String)
    (nodeselector : T.NodeSelector) (tolerations : List T.Toleration)
    (checkDBReady : T.EnsureFunc) (secretKey dbURL : String) (dbPort : Int) (image : String)
    (nameLabels : T.Name) (destroyed : T.ResourceDestroy × Option GoError)
    (ensured : T.ResourceQuery × Option GoError)
    (hname : deps.MustForName componentLabels (deps.GetRestoreJobName backupName) = some nameLabels)
    (hdestroy : deps.AdaptFuncToDestroy (deps.GetRestoreJobName backupName) ns = destroyed)
    (hensure : deps.AdaptFuncToEnsure
      (deps.getJob ns nameLabels nodeselector tolerations (deps.GetSecretName backupName) secretKey
        (deps.getCommand timestamp bucketName backupName certPath secretPath dbURL dbPort) image) =
      ensured) :
    ∃ r, AdaptFunc deps monitor backupName ns componentLabels bucketName timestamp nodeselector
        tolerations checkDBReady secretKey dbURL dbPort image = some r ∧
      (r.err ≠ none ↔ (destroyed.2 ≠ none ∨ ensured.2 ≠ none)) ∧
      (destroyed.2 ≠ none → r.err = destroyed.2 ∧ r.queryFunc = none ∧ r.destroyFunc = none) ∧
      (destroyed.2 = none → ensured.2 ≠ none →
        r.err = ensured.2 ∧ r.queryFunc = none ∧ r.destroyFunc = none) ∧
      (destroyed.2 = none → ensured.2 = none →
        r.err = none ∧ r.queryFunc.isSome = true ∧
        r.destroyFunc = some (deps.DestroyersToDestroyFunc monitor
          [deps.ResourceDestroyToZitadelDestroy destroyed.1])) := by
  subst hdestroy hensure
  unfold AdaptFunc
  simp only [hname]
  cases hd : (deps.AdaptFuncToDestroy (deps.GetRestoreJobName backupName) ns).2 with
  | some e1 =>
    refine ⟨_, rfl, ?_⟩
    simp [hd]
  | none =>
    cases he : (deps.AdaptFuncToEnsure
      (deps.getJob ns nameLabels nodeselector tolerations (deps.GetSecretName backupName) secretKey
        (deps.getCommand timestamp bucketName backupName certPath secretPath dbURL dbPort)
        image)).2 with
    | some e2 =>
      refine ⟨_, rfl, ?_⟩
      simp [hd, he]
    | none =>
      refine ⟨_, rfl, ?_⟩
      simp [hd, he]

/-- Witness of C14 with both steps failing: `AdaptFunc` returns the error of the destroyer,
which is built first, and no functions. -/
theorem adaptFunc_error_iff_witness :
    ∃ r, AdaptFunc (sampleDeps (some "destroy failed") (some "ensure failed")) () "b1" "caos-zitadel"
        "zitadel" "bucket" "t0" () [] () "key" "cockroachdb-public" 26257 "img" = some r ∧
      r.err = some "destroy failed" ∧ r.queryFunc = none ∧ r.destroyFunc = none := by
  obtain ⟨r, hr, _, hfirst, _⟩ :=
    adaptFunc_error_iff (sampleDeps (some "destroy failed") (some "ensure failed")) () "b1"
      "caos-zitadel" "zitadel" "bucket" "t0" () [] () "key" "cockroachdb-public" 26257 "img"
      "zitadelbackup-b1-restore" ((), some "destroy failed") ((), some "ensure failed")
      (by decide) rfl rfl
  exact ⟨r, hr, hfirst (by simp)⟩

end restore
